import Mathlib

/-!
Shallow embedding of the slickstream/brd connection/request gateway
(src/providers/google/google-provider.ts: class GoogleProvider and class
Server).  Pure fragments of the TypeScript are translated into Lean
functions; the express/ws/google collaborators are modelled as explicit
parameters; JavaScript exceptions are modelled with Except.
-/

namespace Brd

/-- Truthiness of an optional JavaScript string: `undefined` and the empty
string are falsy, every other string is truthy. -/
def truthyStr : Option String → Bool
  | none => false
  | some s => s ≠ ""

/-- JSON values, as produced by the handlers and serialized with
JSON.stringify. -/
inductive Json where
  | null : Json
  | bool (b : Bool) : Json
  | num (n : Int) : Json
  | str (s : String) : Json
  | arr (items : List Json) : Json
  | obj (fields : List (String × Json)) : Json

/-- Hexadecimal digit for JSON \u escapes. -/
def hexDigit (n : Nat) : String :=
  if n < 10 then toString n
  else if n = 10 then "a" else if n = 11 then "b" else if n = 12 then "c"
  else if n = 13 then "d" else if n = 14 then "e" else "f"

/-- Escape of one character inside a JSON string literal, following the
QuoteJSONString algorithm used by JSON.stringify. -/
def escapeChar (c : Char) : String :=
  if c = '"' then "\\\""
  else if c = '\\' then "\\\\"
  else if c.toNat = 8 then "\\b"
  else if c = '\t' then "\\t"
  else if c = '\n' then "\\n"
  else if c.toNat = 12 then "\\f"
  else if c = '\r' then "\\r"
  else if c.toNat < 32 then "\\u00" ++ hexDigit (c.toNat / 16) ++ hexDigit (c.toNat % 16)
  else String.singleton c

/-- JSON.stringify applied to a string value: the quoted, escaped literal. -/
def quoteJSONString (s : String) : String :=
  "\"" ++ String.join (s.toList.map escapeChar) ++ "\""

mutual

/-- Serialization of a JSON value as JSON.stringify(value, null, space)
produces it: `gap` is the indentation unit derived from the space argument
(the empty string for compact output), `ind` is the accumulated indentation
of the enclosing value. -/
def jsonSerialize (gap ind : String) : Json → String
  | .null => "null"
  | .bool b => if b then "true" else "false"
  | .num n => toString n
  | .str s => quoteJSONString s
  | .arr [] => "[]"
  | .arr (x :: xs) =>
    if gap = "" then "[" ++ jsonSerializeItems gap ind (x :: xs) ++ "]"
    else "[\n" ++ (ind ++ gap) ++ jsonSerializeItems gap (ind ++ gap) (x :: xs)
      ++ "\n" ++ ind ++ "]"
  | .obj [] => "\x7b\x7d"
  | .obj (f :: fs) =>
    if gap = "" then "\x7b" ++ jsonSerializeFields gap ind (f :: fs) ++ "\x7d"
    else "\x7b\n" ++ (ind ++ gap) ++ jsonSerializeFields gap (ind ++ gap) (f :: fs)
      ++ "\n" ++ ind ++ "\x7d"

/-- Serialization of the comma-separated items of a JSON array. -/
def jsonSerializeItems (gap ind : String) : List Json → String
  | [] => ""
  | [x] => jsonSerialize gap ind x
  | x :: y :: xs =>
    jsonSerialize gap ind x ++ (if gap = "" then "," else ",\n" ++ ind)
      ++ jsonSerializeItems gap ind (y :: xs)

/-- Serialization of the comma-separated members of a JSON object. -/
def jsonSerializeFields (gap ind : String) : List (String × Json) → String
  | [] => ""
  | [(k, v)] => quoteJSONString k ++ (if gap = "" then ":" else ": ") ++ jsonSerialize gap ind v
  | (k, v) :: f :: fs =>
    quoteJSONString k ++ (if gap = "" then ":" else ": ") ++ jsonSerialize gap ind v
      ++ (if gap = "" then "," else ",\n" ++ ind)
      ++ jsonSerializeFields gap ind (f :: fs)

end

/-- JSON.stringify(value) with no space argument: compact serialization. -/
def jsonStringify (v : Json) : String :=
  jsonSerialize "" "" v

/-- JSON.stringify(value, null, 3): pretty serialization with a three-space
indentation unit. -/
def jsonStringify3 (v : Json) : String :=
  jsonSerialize "   " "" v

/-- Physical websocket connections are identified by a number; identity of
JavaScript objects becomes equality of these identifiers. -/
abbrev WS := Nat

/-- The Server field activeSocketsByUser, a JavaScript object mapping a user
id to the array of that user's open sockets, modelled as an association list
with at most one entry per key. -/
abbrev SocketMap := List (String × List WS)

/-- Property read activeSocketsByUser[u]: the socket array stored under u,
or undefined (none) when no entry exists. -/
def lookupSockets (m : SocketMap) (u : String) : Option (List WS) :=
  (m.find? (fun e => e.1 = u)).map (·.2)

/-- Property write activeSocketsByUser[u] = l (covers both in-place mutation
of the stored array and insertion of a fresh entry): replace the entry for u
when one exists, append a new entry otherwise. -/
def setSockets (m : SocketMap) (u : String) (l : List WS) : SocketMap :=
  match m with
  | [] => [(u, l)]
  | e :: rest => if e.1 = u then (u, l) :: rest else e :: setSockets rest u l

/-- delete activeSocketsByUser[u]. -/
def delSockets (m : SocketMap) (u : String) : SocketMap :=
  m.filter (fun e => e.1 ≠ u)

/-- Server.registerClientSocket: when the context has a user, push the
socket onto that user's array, creating the entry first when absent. -/
def registerClientSocket (m : SocketMap) (ctxUser : Option String) (ws : WS) : SocketMap :=
  match ctxUser with
  | none => m
  | some u =>
    match lookupSockets m u with
    | none => setSockets m u [ws]
    | some socketList => setSockets m u (socketList ++ [ws])

/-- Array.prototype.splice(indexOf ws, 1): removal of the first occurrence
of ws, a no-op when ws is absent. -/
def removeFirst (ws : WS) : List WS → List WS
  | [] => []
  | x :: xs => if x = ws then xs else x :: removeFirst ws xs

/-- Server.unregisterClientSocket: when the context has a user and the
socket occurs in that user's array, splice out its first occurrence when the
array holds more than one socket, and delete the whole entry otherwise. -/
def unregisterClientSocket (m : SocketMap) (ctxUser : Option String) (ws : WS) : SocketMap :=
  match ctxUser with
  | none => m
  | some u =>
    match lookupSockets m u with
    | none => m
    | some socketList =>
      if ws ∈ socketList then
        if socketList.length > 1 then setSockets m u (removeFirst ws socketList)
        else delSockets m u
      else m

/-- Server.onUserSignedOut: close every socket registered for the user and
delete the map entry; returns the list of sockets that were closed together
with the new map. -/
def onUserSignedOut (m : SocketMap) (userId : String) : List WS × SocketMap :=
  match lookupSockets m userId with
  | some socketList => (socketList, delSockets m userId)
  | none => ([], m)

/-- Server.deliverMessage: with multicast true, serialize the message once
with compact JSON.stringify and send it to every socket registered for the
context user (none sent when there is no user or no entry); with multicast
false, send JSON.stringify(message, null, pretty ? 3 : null) to the
context-bound websocket (none sent when no websocket is bound).  The result
lists each performed send as a socket paired with the wire text. -/
def deliverMessage (m : SocketMap) (ctxUser : Option String) (ctxWebsocket : Option WS)
    (pretty : Bool) (message : Json) (multicast : Bool) : List (WS × String) :=
  if multicast then
    match ctxUser with
    | some u =>
      match lookupSockets m u with
      | some socketList =>
        let serialized := jsonStringify message
        socketList.map (fun ws => (ws, serialized))
      | none => []
    | none => []
  else
    match ctxWebsocket with
    | some ws => [(ws, if pretty then jsonStringify3 message else jsonStringify message)]
    | none => []

/-- RestServiceResult as constructed by the handlers: new
RestServiceResult(json, statusCode, message, redirectUrl), each argument
possibly null. -/
structure RestServiceResult where
  json : Option Json
  statusCode : Option Nat
  message : Option String
  redirectUrl : Option String

/-- Truthiness of result.statusCode: null and 0 are falsy. -/
def truthyCode : Option Nat → Bool
  | none => false
  | some c => c ≠ 0

/-- Observable response effects produced through the express Response
object, in the order the dispatcher performs them. -/
inductive HttpEffect where
  | setHeader (name value : String)
  | redirect (toUrl : String)
  | jsonBody (v : Json)
  | setStatus (code : Nat)
  | send (body : String)
  | endResponse
  | contentType (ct : String)

/-- Everything observable about one Server.handleHttpRequest invocation:
the response effects, the argument of any logger.error call, and the error
argument the execution context was finished with (some none is a finish with
no error, some (some e) a finish with error e, none would be no finish at
all). -/
structure DispatchOutcome where
  effects : List HttpEffect
  loggedError : Option String
  finishedWith : Option (Option String)

/-- Server.sendInternalError: text/plain header, then
response.status(500).send of the fixed prefix followed by
JSON.stringify(err), where the dispatcher passes err.toString(). -/
def sendInternalError (err : String) : List HttpEffect :=
  [HttpEffect.setHeader "Content-Type" "text/plain",
   HttpEffect.setStatus 500,
   HttpEffect.send ("Internal server error: " ++ quoteJSONString err)]

/-- Body of the send effect performed by sendInternalError, for stating how
the 500 body depends on the thrown error. -/
def internalErrorBody (err : String) : String :=
  "Internal server error: " ++ quoteJSONString err

/-- Truthiness of result.json: null, undefined, false, 0 and the empty
string are falsy, arrays and objects are truthy. -/
def truthyJson : Option Json → Bool
  | none => false
  | some .null => false
  | some (.bool b) => b
  | some (.num n) => n ≠ 0
  | some (.str s) => s ≠ ""
  | some (.arr _) => true
  | some (.obj _) => true

/-- Response effects for a successfully returned RestServiceResult:
redirect when redirectUrl is truthy, otherwise json when truthy, otherwise
optional content type, status (the given one or 200), and either send of the
message or a bare end. -/
def resultEffects (contentTypeArg : Option String) (result : RestServiceResult) :
    List HttpEffect :=
  if truthyStr result.redirectUrl then
    [HttpEffect.redirect (result.redirectUrl.getD "")]
  else if truthyJson result.json then
    [HttpEffect.jsonBody (result.json.getD .null)]
  else
    (if truthyStr contentTypeArg then [HttpEffect.contentType (contentTypeArg.getD "")] else [])
      ++ [HttpEffect.setStatus (if truthyCode result.statusCode then result.statusCode.getD 0 else 200)]
      ++ (if truthyStr result.message then [HttpEffect.send (result.message.getD "")]
          else [HttpEffect.endResponse])

/-- Server.handleHttpRequest.  The session-hydration hook
(initializeHttpContext, an external collaborator) either throws or returns
the doNotHandle flag; the registered handler either throws or returns a
RestServiceResult.  A thrown error is modelled by its err.toString() string.
The try/catch of the source becomes the error branches: the error is logged,
sendInternalError is invoked with err.toString(), and the context is
finished with the error. -/
def handleHttpRequest (cacheable : Bool) (contentTypeArg : Option String)
    (hook : Except String Bool) (handler : Except String RestServiceResult) :
    DispatchOutcome :=
  let cacheEffects : List HttpEffect :=
    if cacheable then []
    else [HttpEffect.setHeader "Cache-Control" "no-cache, no-store, max-age=0, must-revalidate"]
  match hook with
  | .error err =>
    ⟨cacheEffects ++ sendInternalError err, some err, some (some err)⟩
  | .ok doNotHandle =>
    if doNotHandle then
      ⟨cacheEffects, none, some none⟩
    else
      match handler with
      | .error err =>
        ⟨cacheEffects ++ sendInternalError err, some err, some (some err)⟩
      | .ok result =>
        ⟨cacheEffects ++ resultEffects contentTypeArg result, none, some none⟩

/-- Substring test used to state that a response body contains the internal
error content. -/
def strContains (s sub : String) : Bool :=
  s.toList.tails.any (fun t => sub.toList.isPrefixOf t)

/-- Lower-casing as String.prototype.toLowerCase performs it on the ASCII
service ids involved. -/
def jsToLower (s : String) : String :=
  s.map Char.toLower

/-- The two scopes GoogleProvider.handleServiceAuthRequest always requests
before adding service-specific ones. -/
def baseScopes : List String :=
  ["https://www.googleapis.com/auth/userinfo.email",
   "https://www.googleapis.com/auth/userinfo.profile"]

/-- GoogleProvider.addScopes: append each scope of add that is not already
present (scopes.indexOf(a) < 0), preserving order. -/
def addScopes (scopes : List String) : List String → List String
  | [] => scopes
  | a :: rest =>
    if a ∈ scopes then addScopes scopes rest
    else addScopes (scopes ++ [a]) rest

/-- Descriptor data of the two searchers (gmailSearcher and
googleDriveSearcher, external collaborators of this file): the descriptor id
and the declared OAuth scopes of each. -/
structure SearcherInfo where
  gmailId : String
  gmailScopes : List String
  driveId : String
  driveScopes : List String

/-- Query parameters of an auth request. -/
structure AuthQuery where
  braidUserId : Option String
  callback : Option String
  serviceIds : Option String

/-- Outcome of GoogleProvider.handleServiceAuthRequest: a 4xx
RestServiceResult, or a redirect to the provider authorization endpoint
carrying the computed scope list and the JSON state fields
(braidUserId, services, clientCallback). -/
inductive AuthReqOutcome where
  | clientError (code : Nat) (message : String)
  | redirectUrl (scopes : List String) (braidUserId : String) (services : List String)
      (clientCallback : String)
deriving DecidableEq

/-- One iteration of the for/switch over the requested service ids:
serviceId.trim().toLowerCase() is compared with the searcher descriptor ids,
and on a match the searcher scopes are added and the original id is pushed
onto scopedServiceIds. -/
def authReqStep (info : SearcherInfo) (acc : List String × List String) (serviceId : String) :
    List String × List String :=
  let normalized := jsToLower serviceId.trim
  if normalized = info.gmailId then
    (addScopes acc.1 info.gmailScopes, acc.2 ++ [serviceId])
  else if normalized = info.driveId then
    (addScopes acc.1 info.driveScopes, acc.2 ++ [serviceId])
  else
    acc

/-- GoogleProvider.handleServiceAuthRequest: reject with 400 when
braidUserId, callback or serviceIds is missing; otherwise split serviceIds
on commas, fold the switch over the pieces starting from the base scopes,
and redirect to generateAuthUrl with the resulting scopes and the state
JSON. -/
def handleServiceAuthRequest (info : SearcherInfo) (q : AuthQuery) : AuthReqOutcome :=
  if ¬ truthyStr q.braidUserId then .clientError 400 "Missing token param"
  else if ¬ truthyStr q.callback then .clientError 400 "Missing callback param"
  else if ¬ truthyStr q.serviceIds then .clientError 400 "Missing serviceIds param"
  else
    let serviceIdList := (q.serviceIds.getD "").splitOn ","
    let acc := serviceIdList.foldl (authReqStep info) (baseScopes, [])
    .redirectUrl acc.1 (q.braidUserId.getD "") acc.2 (q.callback.getD "")

/-- Parsed value of the opaque state token: the three JSON fields the auth
request serialized, each possibly absent after deserialization of an
arbitrary token. -/
structure OAuthState where
  braidUserId : Option String
  services : Option (List String)
  clientCallback : Option String
deriving DecidableEq

/-- Result of JSON.parse on a state token: a falsy value (null, 0, the
empty string, false), or a truthy object with the fields above. -/
inductive ParsedState where
  | nullish
  | obj (s : OAuthState)

/-- Outcome of GoogleProvider.handleServiceAuthCallback up to the point
where the provider token exchange would start: a 4xx RestServiceResult, an
exception escaping the handler (JSON.parse throwing on an unparseable
token), or entry into oauthClient.getToken with the validated state. -/
inductive CallbackOutcome where
  | clientError (code : Nat) (message : String)
  | thrown
  | tokenExchange (braidUserId : String) (services : List String)
      (clientCallback : Option String)
deriving DecidableEq

/-- Whether an outcome is a client error (4xx status). -/
def CallbackOutcome.isClientError : CallbackOutcome → Bool
  | .clientError code _ => 400 ≤ code ∧ code < 500
  | _ => false

/-- Whether an outcome reaches the provider token exchange. -/
def CallbackOutcome.isTokenExchange : CallbackOutcome → Bool
  | .tokenExchange _ _ _ => true
  | _ => false

/-- GoogleProvider.handleServiceAuthCallback, first phase: 400 when the
code parameter is falsy; otherwise JSON.parse(state) — which throws when the
state parameter is absent (JSON.parse(undefined)) or when parse rejects the
token; then 400 when the parsed state is falsy, its braidUserId is falsy, or
its services field is absent; otherwise the token exchange starts with the
validated fields.  The parse behavior of the JSON built-in is an explicit
parameter. -/
def handleServiceAuthCallback (parse : String → Except String ParsedState)
    (code : Option String) (state : Option String) : CallbackOutcome :=
  if ¬ truthyStr code then .clientError 400 "Auth code is missing"
  else
    match state with
    | none => .thrown
    | some stateString =>
      match parse stateString with
      | .error _ => .thrown
      | .ok .nullish => .clientError 400 "State information is missing"
      | .ok (.obj st) =>
        if ¬ truthyStr st.braidUserId ∨ st.services.isNone then
          .clientError 400 "State information is missing"
        else
          .tokenExchange (st.braidUserId.getD "") (st.services.getD []) st.clientCallback

/-- One entry of the emails array of an external profile object. -/
structure ProfileEmail where
  type : Option String
  value : String
deriving DecidableEq

/-- External profile object as GoogleProvider.getEmailFromProfile reads it:
only the emails array matters, and it may be absent. -/
structure GProfile where
  emails : Option (List ProfileEmail)
deriving DecidableEq

/-- GoogleProvider.getEmailFromProfile: the first loop returns the value of
the first email whose type is account; past it, the second guard reads
profile.emails.length even when profile.emails is absent, which faults with
a TypeError (the error branch); otherwise the first email value or null is
returned. -/
def getEmailFromProfile (profile : Option GProfile) : Except Unit (Option String) :=
  let firstPass : Option String :=
    match profile with
    | some prof =>
      match prof.emails with
      | some emails => (emails.find? (fun e => e.type = some "account")).map (·.value)
      | none => none
    | none => none
  match firstPass with
  | some v => .ok (some v)
  | none =>
    match profile with
    | none => .ok none
    | some prof =>
      match prof.emails with
      | none => .error ()
      | some emails =>
        match emails with
        | e :: _ => .ok (some e.value)
        | [] => .ok none

/-- Details payload of a client message. -/
structure MsgDetails where
  userId : Option String
  message : Option String
deriving DecidableEq

/-- ClientMessage envelope as Server.handleWebsocketMessage reads it: every
field optional, the discriminants checked by truthiness. -/
structure ClientMessage where
  type : Option String
  serviceId : Option String
  accountId : Option String
  details : Option MsgDetails
deriving DecidableEq

/-- The open-success message the handler sends back. -/
def openSuccessMessage : ClientMessage :=
  ⟨some "open-success", none, none, none⟩

/-- The open-failed message the handler sends back when the open message
carries no user id. -/
def openFailedMessage : ClientMessage :=
  ⟨some "open-failed", none, none, some ⟨none, some "No such user"⟩⟩

/-- Everything observable about one Server.handleWebsocketMessage
invocation: the unicast messages delivered back on this connection, the
registry after the call, the user id passed to
userManager.onWebsocketOpenRequest when authentication was attempted, how
many warnings were logged, which service handlers received the message,
whether the general app-message handler ran, and the error the execution
context was finished with (none on a clean finish). -/
structure WsOutcome where
  sent : List ClientMessage
  map : SocketMap
  authAttempted : Option String
  warnings : Nat
  cardDispatched : List String
  appHandled : Bool
  finishedWith : Option String

/-- Truthy user id carried in msg.details (msg.details && msg.details.userId). -/
def detailsUserId (msg : ClientMessage) : Option String :=
  match msg.details with
  | none => none
  | some d => if truthyStr d.userId then d.userId else none

/-- Server.handleWebsocketMessage.  The registry before the call, the
connection, the context user hydrated by userManager.onWebsocketEvent, the
behavior of userManager.onWebsocketOpenRequest (throwing, or returning with
the context user it leaves behind — none when authentication fails), the
ids of the registered service handlers, and the JSON.parse result of the
payload (throwing, or null, or a message) are explicit parameters.  The
try/catch of the source turns a parse failure, a missing type, or a thrown
open request into a context finished with that error and nothing else
observable. -/
def handleWebsocketMessage (m : SocketMap) (ws : WS) (hydratedUser : Option String)
    (openAuth : String → Except String (Option String)) (handlerIds : List String)
    (parse : Except String (Option ClientMessage)) : WsOutcome :=
  match parse with
  | .error err => ⟨[], m, none, 0, [], false, some err⟩
  | .ok parsed =>
    match parsed with
    | none => ⟨[], m, none, 0, [], false, some "Unexpected or invalid message"⟩
    | some msg =>
      if ¬ truthyStr msg.type then
        ⟨[], m, none, 0, [], false, some "Unexpected or invalid message"⟩
      else if msg.type = some "open" then
        match detailsUserId msg with
        | some uid =>
          match openAuth uid with
          | .error err => ⟨[], m, some uid, 0, [], false, some err⟩
          | .ok ctxUser =>
            match ctxUser with
            | some u =>
              ⟨[openSuccessMessage], registerClientSocket m (some u) ws, some uid, 0, [],
                false, none⟩
            | none => ⟨[], m, some uid, 0, [], false, none⟩
        | none => ⟨[openFailedMessage], m, none, 1, [], false, none⟩
      else if truthyStr msg.serviceId ∧ truthyStr msg.accountId then
        match hydratedUser with
        | some _ =>
          ⟨[], m, none, 0, handlerIds.filter (fun hid => some hid = msg.serviceId), false, none⟩
        | none => ⟨[], m, none, 1, [], false, none⟩
      else
        match hydratedUser with
        | some _ => ⟨[], m, none, 0, [], true, none⟩
        | none => ⟨[], m, none, 1, [], false, none⟩

/-- Liveness events on one connection: a timer tick or a __pong__ control
frame, each carrying the clock.now() value at which it happens. -/
inductive WsEvent where
  | tick (t : ℚ)
  | pong (t : ℚ)
deriving DecidableEq

/-- Liveness state of one connection: the lastPong variable, whether
ws.close() has been called, and how many __ping__ probes were sent. -/
structure LiveState where
  lastPong : ℚ
  closed : Bool
  pings : Nat
deriving DecidableEq

/-- Server.handleWebsockets: the configured client.pingPongInterval
(defaulting to 10000), with a configured zero replaced by
1000 * 60 * 60 * 24. -/
def effectivePingPong (configured : Option ℚ) : ℚ :=
  let p := configured.getD 10000
  if p = 0 then 1000 * 60 * 60 * 24 else p

/-- State of a fresh connection: lastPong seeded at clock.now() plus half
the period, not closed, no probes sent. -/
def liveInit (start period : ℚ) : LiveState :=
  ⟨start + period / 2, false, 0⟩

/-- One liveness event.  A closed connection has had its timer cleared (the
close handler calls clock.clearInterval) and receives nothing, so events
leave it unchanged.  A pong updates lastPong to now; a tick closes the
socket when now minus lastPong exceeds the period and otherwise sends a
__ping__ probe. -/
def liveStep (period : ℚ) (st : LiveState) : WsEvent → LiveState
  | .pong t => if st.closed then st else { st with lastPong := t }
  | .tick t =>
    if st.closed then st
    else if t - st.lastPong > period then { st with closed := true }
    else { st with pings := st.pings + 1 }

/-- The liveness state after a sequence of events on a connection opened at
start. -/
def liveRun (period start : ℚ) (events : List WsEvent) : LiveState :=
  events.foldl (liveStep period) (liveInit start period)

/-- Time of the last liveness reply among the given events, or the seeded
initial value when none occurred. -/
def lastReply (start period : ℚ) (events : List WsEvent) : ℚ :=
  events.foldl (fun acc e => match e with | .pong t => t | .tick _ => acc)
    (start + period / 2)

/-- Well-formedness of the socket registry: no entry holds an empty array. -/
def SocketMapWF (m : SocketMap) : Prop :=
  ∀ e ∈ m, e.2 ≠ []

/-- The sessions a user currently has: the stored array, or none at all. -/
def sessionsOf (m : SocketMap) (u : String) : List WS :=
  (lookupSockets m u).getD []

/-- Whether a requested service id matches one of the two searcher
descriptors after trimming and lower-casing. -/
def recognizedService (info : SearcherInfo) (serviceId : String) : Bool :=
  jsToLower serviceId.trim = info.gmailId ∨ jsToLower serviceId.trim = info.driveId

/-- The OAuth scopes a requested service id contributes: those of the
searcher it matches, none when unrecognized. -/
def declaredScopes (info : SearcherInfo) (serviceId : String) : List String :=
  if jsToLower serviceId.trim = info.gmailId then info.gmailScopes
  else if jsToLower serviceId.trim = info.driveId then info.driveScopes
  else []

/-- The fold handleServiceAuthRequest performs over the requested service
ids, starting from an accumulator. -/
def authReqFold (info : SearcherInfo) (acc : List String × List String)
    (serviceIds : List String) : List String × List String :=
  serviceIds.foldl (authReqStep info) acc

/-- Executable statement that the peer replies within every period: before
each tick, the elapsed time since the latest reply (or since the seeded
initial value) does not exceed the period. -/
def repliesWithinEvery (start period : ℚ) (events : List WsEvent) : Bool :=
  (List.range events.length).all fun i =>
    match events.getD i (WsEvent.pong 0) with
    | .tick t => decide (t - lastReply start period (events.take i) ≤ period)
    | .pong _ => true

/-- Whether a status-500 write occurs among the response effects. -/
def hasStatus500 (effects : List HttpEffect) : Bool :=
  effects.any fun e =>
    match e with
    | .setStatus 500 => true
    | _ => false

/-- The bodies passed to response.send among the response effects. -/
def sendBodies (effects : List HttpEffect) : List String :=
  effects.filterMap fun e =>
    match e with
    | .send body => some body
    | _ => none

theorem lookupSockets_nil (u : String) : lookupSockets [] u = none := rfl

theorem lookupSockets_cons (e : String × List WS) (rest : SocketMap) (u : String) :
    lookupSockets (e :: rest) u =
      if e.1 = u then some e.2 else lookupSockets rest u := by
  by_cases h : e.1 = u
  · simp [lookupSockets, List.find?_cons_of_pos, h]
  · simp only [lookupSockets, h, if_neg, not_false_iff]
    rw [List.find?_cons_of_neg]
    simp [h]

theorem setSockets_nil (u : String) (l : List WS) : setSockets [] u l = [(u, l)] := rfl

theorem setSockets_cons (e : String × List WS) (rest : SocketMap) (u : String) (l : List WS) :
    setSockets (e :: rest) u l =
      if e.1 = u then (u, l) :: rest else e :: setSockets rest u l := rfl

theorem lookupSockets_setSockets_self (m : SocketMap) (u : String) (l : List WS) :
    lookupSockets (setSockets m u l) u = some l := by
  induction m with
  | nil => simp [setSockets_nil, lookupSockets_cons, lookupSockets_nil]
  | cons e rest ih =>
    by_cases h : e.1 = u
    · simp [setSockets_cons, h, lookupSockets_cons]
    · simp [setSockets_cons, h, lookupSockets_cons, ih]

theorem lookupSockets_setSockets_other (m : SocketMap) (u v : String) (l : List WS)
    (huv : v ≠ u) : lookupSockets (setSockets m u l) v = lookupSockets m v := by
  induction m with
  | nil => simp [setSockets_nil, lookupSockets_cons, lookupSockets_nil, Ne.symm huv]
  | cons e rest ih =>
    by_cases h : e.1 = u
    · rw [setSockets_cons, if_pos h, lookupSockets_cons, lookupSockets_cons, if_neg (Ne.symm huv),
        if_neg (fun hc => huv (h ▸ hc).symm)]
    · rw [setSockets_cons, if_neg h, lookupSockets_cons, lookupSockets_cons, ih]

theorem lookupSockets_delSockets_self (m : SocketMap) (u : String) :
    lookupSockets (delSockets m u) u = none := by
  induction m with
  | nil => rfl
  | cons e rest ih =>
    by_cases h : e.1 = u
    · simpa [delSockets, h] using ih
    · simpa [delSockets, h, lookupSockets_cons] using ih

theorem mem_setSockets (m : SocketMap) (u : String) (l : List WS) (e : String × List WS)
    (he : e ∈ setSockets m u l) : e ∈ m ∨ e = (u, l) := by
  induction m with
  | nil => simpa [setSockets_nil] using he
  | cons f rest ih =>
    by_cases h : f.1 = u
    · rw [setSockets_cons, if_pos h] at he
      rcases List.mem_cons.mp he with h1 | h1
      · exact Or.inr h1
      · exact Or.inl (List.mem_cons_of_mem _ h1)
    · rw [setSockets_cons, if_neg h] at he
      rcases List.mem_cons.mp he with h1 | h1
      · exact Or.inl (h1 ▸ List.mem_cons_self _ _)
      · rcases ih h1 with h2 | h2
        · exact Or.inl (List.mem_cons_of_mem _ h2)
        · exact Or.inr h2

theorem mem_delSockets (m : SocketMap) (u : String) (e : String × List WS)
    (he : e ∈ delSockets m u) : e ∈ m :=
  List.mem_of_mem_filter he

theorem removeFirst_nil (ws : WS) : removeFirst ws [] = [] := rfl

theorem removeFirst_cons (ws x : WS) (xs : List WS) :
    removeFirst ws (x :: xs) = if x = ws then xs else x :: removeFirst ws xs := rfl

theorem removeFirst_length (ws : WS) (l : List WS) (h : ws ∈ l) :
    (removeFirst ws l).length = l.length - 1 := by
  induction l with
  | nil => cases h
  | cons x xs ih =>
    by_cases hx : x = ws
    · simp [removeFirst_cons, hx]
    · have h1 : ws ∈ xs := by
        rcases List.mem_cons.mp h with h1 | h1
        · exact absurd h1.symm hx
        · exact h1
      have hlen : 1 ≤ xs.length := List.length_pos.mpr (List.ne_nil_of_mem h1)
      simp only [removeFirst_cons, hx, if_neg, not_false_iff, List.length_cons, ih h1]
      omega

theorem removeFirst_count (ws : WS) (l : List WS) (h : ws ∈ l) :
    (removeFirst ws l).count ws = l.count ws - 1 := by
  induction l with
  | nil => cases h
  | cons x xs ih =>
    by_cases hx : x = ws
    · subst hx
      simp [removeFirst_cons, List.count_cons]
    · have h1 : ws ∈ xs := by
        rcases List.mem_cons.mp h with h1 | h1
        · exact absurd h1.symm hx
        · exact h1
      have hne : (ws == x) = false := by
        simp [Ne.symm hx]
      simp [removeFirst_cons, hx, List.count_cons, hne, ih h1]

theorem removeFirst_count_other (ws target : WS) (l : List WS) (h : target ≠ ws) :
    (removeFirst ws l).count target = l.count target := by
  induction l with
  | nil => rfl
  | cons x xs ih =>
    by_cases hx : x = ws
    · subst hx
      have hne : (target == x) = false := by simp [h]
      simp [removeFirst_cons, List.count_cons, hne, Ne.symm h]
    · simp [removeFirst_cons, hx, List.count_cons, ih]

theorem authReqStep_eq (info : SearcherInfo) (acc : List String × List String)
    (serviceId : String) :
    authReqStep info acc serviceId =
      (addScopes acc.1 (declaredScopes info serviceId),
       acc.2 ++ if recognizedService info serviceId then [serviceId] else []) := by
  by_cases hg : jsToLower serviceId.trim = info.gmailId
  · simp [authReqStep, declaredScopes, recognizedService, hg]
  · by_cases hd : jsToLower serviceId.trim = info.driveId
    · have he : info.driveId ≠ info.gmailId := fun he => hg (hd.trans he)
      simp [authReqStep, declaredScopes, recognizedService, hg, hd, he]
    · simp [authReqStep, declaredScopes, recognizedService, hg, hd, addScopes]

theorem mem_addScopes (x : String) (add : List String) :
    ∀ scopes : List String, x ∈ addScopes scopes add ↔ x ∈ scopes ∨ x ∈ add := by
  induction add with
  | nil => intro scopes; simp [addScopes]
  | cons a rest ih =>
    intro scopes
    by_cases h : a ∈ scopes
    · rw [addScopes, if_pos h, ih]
      constructor
      · rintro (h1 | h1)
        · exact Or.inl h1
        · exact Or.inr (List.mem_cons_of_mem _ h1)
      · rintro (h1 | h1)
        · exact Or.inl h1
        · rcases List.mem_cons.mp h1 with h2 | h2
          · exact Or.inl (h2 ▸ h)
          · exact Or.inr h2
    · rw [addScopes, if_neg h, ih]
      simp only [List.mem_append, List.mem_singleton, List.mem_cons]
      tauto

theorem nodup_addScopes (add : List String) :
    ∀ scopes : List String, scopes.Nodup → (addScopes scopes add).Nodup := by
  induction add with
  | nil => intro scopes h; exact h
  | cons a rest ih =>
    intro scopes h
    by_cases ha : a ∈ scopes
    · rw [addScopes, if_pos ha]
      exact ih scopes h
    · rw [addScopes, if_neg ha]
      refine ih (scopes ++ [a]) ?_
      simp [List.nodup_append, h, ha]

theorem addScopes_decompose (add : List String) :
    ∀ scopes : List String, ∃ t, addScopes scopes add = scopes ++ t ∧ t.Sublist add := by
  induction add with
  | nil => intro scopes; exact ⟨[], by simp [addScopes], List.nil_sublist _⟩
  | cons a rest ih =>
    intro scopes
    by_cases h : a ∈ scopes
    · rcases ih scopes with ⟨t, ht, hsub⟩
      exact ⟨t, by rw [addScopes, if_pos h, ht], hsub.trans (List.sublist_cons_self a rest)⟩
    · rcases ih (scopes ++ [a]) with ⟨t, ht, hsub⟩
      refine ⟨a :: t, ?_, hsub.cons₂ a⟩
      rw [addScopes, if_neg h, ht, List.append_assoc]
      rfl

theorem authReqFold_services (info : SearcherInfo) (serviceIds : List String) :
    ∀ acc : List String × List String,
      (authReqFold info acc serviceIds).2 =
        acc.2 ++ serviceIds.filter (recognizedService info) := by
  induction serviceIds with
  | nil => intro acc; simp [authReqFold]
  | cons sid rest ih =>
    intro acc
    rw [authReqFold, List.foldl_cons, authReqStep_eq]
    show (authReqFold info _ rest).2 = _
    rw [ih]
    by_cases h : recognizedService info sid
    · simp [h, List.filter_cons]
    · simp [h, List.filter_cons]

theorem authReqFold_scopes_mem (info : SearcherInfo) (serviceIds : List String) :
    ∀ acc : List String × List String, ∀ x : String,
      (x ∈ (authReqFold info acc serviceIds).1 ↔
        x ∈ acc.1 ∨ x ∈ serviceIds.flatMap (declaredScopes info)) := by
  induction serviceIds with
  | nil => intro acc x; simp [authReqFold]
  | cons sid rest ih =>
    intro acc x
    rw [authReqFold, List.foldl_cons, authReqStep_eq]
    show x ∈ (authReqFold info _ rest).1 ↔ _
    rw [ih]
    simp only [mem_addScopes, List.flatMap_cons, List.mem_append]
    tauto

theorem authReqFold_scopes_nodup (info : SearcherInfo) (serviceIds : List String) :
    ∀ acc : List String × List String, acc.1.Nodup →
      (authReqFold info acc serviceIds).1.Nodup := by
  induction serviceIds with
  | nil => intro acc h; exact h
  | cons sid rest ih =>
    intro acc h
    rw [authReqFold, List.foldl_cons, authReqStep_eq]
    exact ih _ (nodup_addScopes _ _ h)

theorem authReqFold_scopes_sublist (info : SearcherInfo) (serviceIds : List String) :
    ∀ acc : List String × List String, ∃ t,
      (authReqFold info acc serviceIds).1 = acc.1 ++ t ∧
        t.Sublist (serviceIds.flatMap (declaredScopes info)) := by
  induction serviceIds with
  | nil => intro acc; exact ⟨[], by simp [authReqFold], List.nil_sublist _⟩
  | cons sid rest ih =>
    intro acc
    rw [authReqFold, List.foldl_cons, authReqStep_eq]
    rcases addScopes_decompose (declaredScopes info sid) acc.1 with ⟨t1, ht1, hsub1⟩
    rcases ih (addScopes acc.1 (declaredScopes info sid),
      acc.2 ++ if recognizedService info sid then [sid] else []) with ⟨t2, ht2, hsub2⟩
    refine ⟨t1 ++ t2, ?_, ?_⟩
    · show (authReqFold info _ rest).1 = _
      rw [ht2]
      simp only [ht1, List.append_assoc]
    · rw [List.flatMap_cons]
      exact List.Sublist.append hsub1 hsub2

theorem authReqFold_unrecognized (info : SearcherInfo) (serviceIds : List String)
    (hall : ∀ sid ∈ serviceIds, recognizedService info sid = false) :
    ∀ acc : List String × List String, authReqFold info acc serviceIds = acc := by
  induction serviceIds with
  | nil => intro acc; rfl
  | cons sid rest ih =>
    intro acc
    rw [authReqFold, List.foldl_cons, authReqStep_eq]
    have hsid : recognizedService info sid = false := hall sid (List.mem_cons_self _ _)
    have hrest : ∀ s ∈ rest, recognizedService info s = false :=
      fun s hs => hall s (List.mem_cons_of_mem _ hs)
    have : declaredScopes info sid = [] := by
      simp only [recognizedService, decide_eq_false_iff_not, not_or] at hsid
      simp [declaredScopes, hsid.1, hsid.2]
    rw [this, hsid]
    have hX : (addScopes acc.1 [], acc.2 ++ if (false : Bool) = true then [sid] else []) = acc := by
      simp [addScopes]
    rw [hX]
    exact ih hrest acc

theorem liveStep_closed (period : ℚ) (st : LiveState) (e : WsEvent) (h : st.closed = true) :
    liveStep period st e = st := by
  cases e with
  | pong t => simp [liveStep, h]
  | tick t => simp [liveStep, h]

theorem foldl_liveStep_closed (period : ℚ) (events : List WsEvent) :
    ∀ st : LiveState, st.closed = true →
      (events.foldl (liveStep period) st).closed = true := by
  induction events with
  | nil => intro st h; exact h
  | cons e rest ih =>
    intro st h
    rw [List.foldl_cons, liveStep_closed period st e h]
    exact ih st h

theorem liveRun_append (period start : ℚ) (events : List WsEvent) (e : WsEvent) :
    liveRun period start (events ++ [e]) = liveStep period (liveRun period start events) e := by
  simp [liveRun, List.foldl_append]

theorem lastReply_append_pong (start period : ℚ) (events : List WsEvent) (t : ℚ) :
    lastReply start period (events ++ [WsEvent.pong t]) = t := by
  simp [lastReply, List.foldl_append]

theorem lastReply_append_tick (start period : ℚ) (events : List WsEvent) (t : ℚ) :
    lastReply start period (events ++ [WsEvent.tick t]) = lastReply start period events := by
  simp [lastReply, List.foldl_append]

theorem liveRun_closed_mono (period start : ℚ) (events post : List WsEvent)
    (h : (liveRun period start events).closed = true) :
    (liveRun period start (events ++ post)).closed = true := by
  rw [liveRun, List.foldl_append]
  exact foldl_liveStep_closed period post _ h

theorem liveRun_lastPong (period start : ℚ) (events : List WsEvent)
    (h : (liveRun period start events).closed = false) :
    (liveRun period start events).lastPong = lastReply start period events := by
  induction events using List.reverseRecOn with
  | nil => rfl
  | append_singleton es e ih =>
    rw [liveRun_append] at h ⊢
    have hes : (liveRun period start es).closed = false := by
      by_contra hc
      have hc2 : (liveRun period start es).closed = true := by
        revert hc
        cases (liveRun period start es).closed <;> simp
      rw [liveStep_closed period _ e hc2] at h
      rw [h] at hc2
      exact Bool.false_ne_true hc2
    cases e with
    | pong t =>
      rw [lastReply_append_pong]
      simp [liveStep, hes]
    | tick t =>
      rw [lastReply_append_tick, ← ih hes]
      by_cases ht : t - (liveRun period start es).lastPong > period
      · exfalso
        simp [liveStep, hes, ht] at h
      · simp [liveStep, hes, ht]

theorem repliesWithinEvery_of_append (start period : ℚ) (events : List WsEvent) (e : WsEvent)
    (h : repliesWithinEvery start period (events ++ [e]) = true) :
    repliesWithinEvery start period events = true := by
  rw [repliesWithinEvery, List.all_eq_true] at h ⊢
  intro i hi
  rw [List.mem_range] at hi
  have hi2 : i ∈ List.range (events ++ [e]).length := by
    rw [List.mem_range, List.length_append]
    omega
  have h2 := h i hi2
  have hgetD : (events ++ [e]).getD i (WsEvent.pong 0) = events.getD i (WsEvent.pong 0) := by
    rw [List.getD_eq_getElem?_getD, List.getD_eq_getElem?_getD, List.getElem?_append_left hi]
  have htake : (events ++ [e]).take i = events.take i := by
    rw [List.take_append_of_le_length (Nat.le_of_lt hi)]
  rw [hgetD, htake] at h2
  exact h2

theorem repliesWithinEvery_last_tick (start period : ℚ) (events : List WsEvent) (t : ℚ)
    (h : repliesWithinEvery start period (events ++ [WsEvent.tick t]) = true) :
    t - lastReply start period events ≤ period := by
  rw [repliesWithinEvery, List.all_eq_true] at h
  have hi : events.length ∈ List.range (events ++ [WsEvent.tick t]).length := by
    rw [List.mem_range]
    simp
  have h2 := h events.length hi
  have hgetD : (events ++ [WsEvent.tick t]).getD events.length (WsEvent.pong 0) =
      WsEvent.tick t := by
    rw [List.getD_eq_getElem?_getD, List.getElem?_append_right (Nat.le_refl _)]
    simp
  have htake : (events ++ [WsEvent.tick t]).take events.length = events := by
    rw [List.take_append_of_le_length (Nat.le_refl _), List.take_length]
  rw [hgetD, htake] at h2
  exact of_decide_eq_true h2

theorem liveRun_not_closed_of_replies (period start : ℚ) (events : List WsEvent)
    (h : repliesWithinEvery start period events = true) :
    (liveRun period start events).closed = false := by
  induction events using List.reverseRecOn with
  | nil => rfl
  | append_singleton es e ih =>
    have hes := ih (repliesWithinEvery_of_append start period es e h)
    rw [liveRun_append]
    cases e with
    | pong t => simp [liveStep, hes]
    | tick t =>
      have hbound := repliesWithinEvery_last_tick start period es t h
      rw [← liveRun_lastPong period start es hes] at hbound
      have hnot : ¬ (t - (liveRun period start es).lastPong > period) := not_lt.mpr hbound
      simp [liveStep, hes, hnot]

theorem liveRun_closed_of_missed (period start : ℚ) (events pre post : List WsEvent) (t : ℚ)
    (hdecomp : events = pre ++ WsEvent.tick t :: post)
    (hmiss : t - lastReply start period pre > period) :
    (liveRun period start events).closed = true := by
  have hdecomp2 : events = (pre ++ [WsEvent.tick t]) ++ post := by
    rw [hdecomp, List.append_assoc]
    rfl
  rw [hdecomp2]
  apply liveRun_closed_mono
  rw [liveRun_append]
  by_cases hc : (liveRun period start pre).closed = true
  · rw [liveStep_closed period _ _ hc]
    exact hc
  · have hc2 : (liveRun period start pre).closed = false := by
      revert hc
      cases (liveRun period start pre).closed <;> simp
    rw [← liveRun_lastPong period start pre hc2] at hmiss
    simp [liveStep, hc2, hmiss]


/-- C9: for profiles lacking an emails field, the profile-email-extraction
helper dereferences the absent emails list and faults with a null-reference
error instead of returning null; the helper is not total over such
profiles. -/
theorem getEmailFromProfile_faults_without_emails (prof : GProfile)
    (h : prof.emails = none) :
    getEmailFromProfile (some prof) = Except.error () := by
  simp [getEmailFromProfile, h]

/-- Witness for C9: the concrete profile with no emails property makes the
helper fault. -/
theorem getEmailFromProfile_faults_without_emails_witness :
    getEmailFromProfile (some ⟨none⟩) = Except.error () :=
  getEmailFromProfile_faults_without_emails ⟨none⟩ rfl

/-- C5 counterexample: a callback request with an authorization code and an
unparseable state token is not rejected with a client error — JSON.parse
throws and the exception escapes the handler (the dispatcher then answers
500), refuting the claim that every such request yields a 4xx. -/
theorem handleServiceAuthCallback_unparseable_not_4xx :
    handleServiceAuthCallback (fun _ => Except.error "SyntaxError") (some "authcode")
        (some "not json") = CallbackOutcome.thrown ∧
    (handleServiceAuthCallback (fun _ => Except.error "SyntaxError") (some "authcode")
        (some "not json")).isClientError = false := by
  constructor
  · rfl
  · rfl

/-- C5 as amended: a missing code yields 400 and a parseable-but-incomplete
or falsy state yields 400, with no token exchange in either case; an
unparseable state token (or an absent state parameter) instead lets the
JSON.parse exception escape the handler, and the token exchange is reached
only from the validated state. -/
theorem handleServiceAuthCallback_validation (parse : String → Except String ParsedState)
    (code stateParam : Option String) :
    (truthyStr code = false →
      handleServiceAuthCallback parse code stateParam =
        CallbackOutcome.clientError 400 "Auth code is missing") ∧
    (truthyStr code = true → stateParam = none →
      handleServiceAuthCallback parse code stateParam = CallbackOutcome.thrown) ∧
    (∀ s e, truthyStr code = true → stateParam = some s → parse s = Except.error e →
      handleServiceAuthCallback parse code stateParam = CallbackOutcome.thrown) ∧
    (∀ s, truthyStr code = true → stateParam = some s → parse s = Except.ok ParsedState.nullish →
      handleServiceAuthCallback parse code stateParam =
        CallbackOutcome.clientError 400 "State information is missing") ∧
    (∀ s st, truthyStr code = true → stateParam = some s →
      parse s = Except.ok (ParsedState.obj st) →
      (truthyStr st.braidUserId = false ∨ st.services = none) →
      handleServiceAuthCallback parse code stateParam =
        CallbackOutcome.clientError 400 "State information is missing") := by
  refine ⟨?_, ?_, ?_, ?_, ?_⟩
  · intro h
    simp [handleServiceAuthCallback, h]
  · intro h hs
    simp [handleServiceAuthCallback, h, hs]
  · intro s e h hs hp
    simp [handleServiceAuthCallback, h, hs, hp]
  · intro s h hs hp
    simp [handleServiceAuthCallback, h, hs, hp]
  · intro s st h hs hp hbad
    rcases hbad with hb | hb
    · simp [handleServiceAuthCallback, h, hs, hp, hb]
    · simp [handleServiceAuthCallback, h, hs, hp, hb]

/-- Witness for the amended C5: each validation branch evaluated at a
concrete input. -/
theorem handleServiceAuthCallback_validation_witness :
    handleServiceAuthCallback (fun _ => Except.ok ParsedState.nullish) none none =
      CallbackOutcome.clientError 400 "Auth code is missing" ∧
    handleServiceAuthCallback (fun _ => Except.ok ParsedState.nullish) (some "c") (some "null") =
      CallbackOutcome.clientError 400 "State information is missing" ∧
    handleServiceAuthCallback (fun _ => Except.ok (ParsedState.obj ⟨some "u1", none, none⟩))
        (some "c") (some "tok") =
      CallbackOutcome.clientError 400 "State information is missing" := by
  refine ⟨?_, ?_, ?_⟩
  · exact (handleServiceAuthCallback_validation (fun _ => Except.ok ParsedState.nullish)
      none none).1 (by decide)
  · exact (handleServiceAuthCallback_validation (fun _ => Except.ok ParsedState.nullish)
      (some "c") (some "null")).2.2.2.1 "null" (by decide) rfl rfl
  · exact (handleServiceAuthCallback_validation
      (fun _ => Except.ok (ParsedState.obj ⟨some "u1", none, none⟩))
      (some "c") (some "tok")).2.2.2.2 "tok" ⟨some "u1", none, none⟩ (by decide) rfl rfl
      (Or.inr rfl)

/-- C1 counterexample: when the handler throws the error whose string form
is boom, the 500 response body sent by the dispatcher contains that internal
error content, refuting the claim that the body is a generic message never
containing it. -/
theorem handleHttpRequest_body_leaks_error :
    (sendBodies (handleHttpRequest false none (Except.error "boom")
        (Except.ok ⟨none, none, none, none⟩)).effects).any
      (fun body => strContains body "boom") = true := by
  decide

/-- C1 as amended: any exception thrown by the registered handler or the
session-hydration hook is caught, logged with full detail, the context is
finished with that error, and the response is a 500 whose body is the fixed
prefix followed by the JSON-stringified error content — the internal error
content is included in the body rather than withheld. -/
theorem handleHttpRequest_internal_fault (cacheable : Bool) (ct : Option String)
    (hook : Except String Bool) (handler : Except String RestServiceResult) (e : String)
    (h : hook = Except.error e ∨ (hook = Except.ok false ∧ handler = Except.error e)) :
    (handleHttpRequest cacheable ct hook handler).loggedError = some e ∧
    (handleHttpRequest cacheable ct hook handler).finishedWith = some (some e) ∧
    hasStatus500 (handleHttpRequest cacheable ct hook handler).effects = true ∧
    sendBodies (handleHttpRequest cacheable ct hook handler).effects = [internalErrorBody e] := by
  rcases h with h | ⟨h1, h2⟩
  · subst h
    cases cacheable <;>
      simp [handleHttpRequest, hasStatus500, sendBodies, sendInternalError, internalErrorBody]
  · subst h1
    subst h2
    cases cacheable <;>
      simp [handleHttpRequest, hasStatus500, sendBodies, sendInternalError, internalErrorBody]

/-- Witness for the amended C1: a hook fault and a handler fault, each at a
concrete error. -/
theorem handleHttpRequest_internal_fault_witness :
    (handleHttpRequest true none (Except.error "hookboom")
        (Except.ok ⟨none, none, none, none⟩)).finishedWith = some (some "hookboom") ∧
    (handleHttpRequest false none (Except.ok false)
        (Except.error "handlerboom" : Except String RestServiceResult)).loggedError =
      some "handlerboom" := by
  constructor
  · exact (handleHttpRequest_internal_fault true none (Except.error "hookboom")
      (Except.ok ⟨none, none, none, none⟩) "hookboom" (Or.inl rfl)).2.1
  · exact (handleHttpRequest_internal_fault false none (Except.ok false)
      (Except.error "handlerboom") "handlerboom" (Or.inr ⟨rfl, rfl⟩)).1

/-- C2 counterexample: with the debug pretty-print configuration enabled,
unicast delivery serializes the message with a three-space indent while
multicast delivery serializes it compactly, so the wire texts differ and a
client can distinguish delivery mode. -/
theorem deliverMessage_wire_differs_when_pretty :
    (deliverMessage [("u", [0])] (some "u") (some 0) true
        (Json.obj [("type", Json.str "open-success")]) false).map Prod.snd ≠
      (deliverMessage [("u", [0])] (some "u") (some 0) true
        (Json.obj [("type", Json.str "open-success")]) true).map Prod.snd := by
  decide

/-- C2 as amended: when the debug pretty-print configuration is disabled,
every send performed by deliverMessage — unicast or multicast — carries the
compact JSON.stringify of the message, so the wire texts of the two delivery
modes are identical; with pretty printing enabled the unicast text is the
three-space-indented serialization instead. -/
theorem deliverMessage_wire_uniform_without_pretty (m : SocketMap)
    (ctxUser : Option String) (ctxWebsocket : Option WS) (message : Json) (multicast : Bool)
    (p : WS × String) (hp : p ∈ deliverMessage m ctxUser ctxWebsocket false message multicast) :
    p.2 = jsonStringify message := by
  by_cases hmc : multicast
  · subst hmc
    cases ctxUser with
    | none => simp [deliverMessage] at hp
    | some u =>
      cases hlook : lookupSockets m u with
      | none => simp [deliverMessage, hlook] at hp
      | some socketList =>
        simp [deliverMessage, hlook] at hp
        obtain ⟨ws, hmem, hws⟩ := hp
        subst hws
        rfl
  · have hmc2 : multicast = false := by
      revert hmc
      cases multicast <;> simp
    subst hmc2
    cases ctxWebsocket with
    | none => simp [deliverMessage] at hp
    | some ws =>
      simp [deliverMessage] at hp
      rw [hp]

/-- Witness for the amended C2: a concrete unicast send and a concrete
multicast send both carry the compact serialization. -/
theorem deliverMessage_wire_uniform_without_pretty_witness :
    ((0 : WS), jsonStringify (Json.str "hello")).2 = jsonStringify (Json.str "hello") ∧
    ((3 : WS), jsonStringify (Json.str "hello")).2 = jsonStringify (Json.str "hello") := by
  constructor
  · exact deliverMessage_wire_uniform_without_pretty [("u", [0])] (some "u") none
      (Json.str "hello") true (0, jsonStringify (Json.str "hello")) (by simp [deliverMessage,
        lookupSockets_cons])
  · exact deliverMessage_wire_uniform_without_pretty [] none (some 3)
      (Json.str "hello") false (3, jsonStringify (Json.str "hello")) (by simp [deliverMessage])

theorem deliverMessage_multicast_countP (m : SocketMap) (u : String) (cws : Option WS)
    (pretty : Bool) (message : Json) (l : List WS) (target : WS)
    (hl : lookupSockets m u = some l) :
    (deliverMessage m (some u) cws pretty message true).countP (fun p => p.1 == target) =
      l.count target := by
  simp [deliverMessage, hl, List.countP_map, List.count_eq_countP]
  rfl

/-- C3 counterexample: an open message carrying a user id whose
authentication fails produces no open-failed reply (and no reply at all),
refuting the claim that authentication failure makes the server emit an
open-failed message with a reason on the same connection. -/
theorem handleWebsocketMessage_auth_failure_silent :
    (handleWebsocketMessage [] 0 none (fun _ => Except.ok none) []
        (Except.ok (some ⟨some "open", none, none, some ⟨some "u1", none⟩⟩))).authAttempted =
      some "u1" ∧
    (handleWebsocketMessage [] 0 none (fun _ => Except.ok none) []
        (Except.ok (some ⟨some "open", none, none, some ⟨some "u1", none⟩⟩))).sent = [] ∧
    ¬ ∃ msgSent ∈ (handleWebsocketMessage [] 0 none (fun _ => Except.ok none) []
        (Except.ok (some ⟨some "open", none, none, some ⟨some "u1", none⟩⟩))).sent,
      msgSent.type = some "open-failed" := by
  refine ⟨rfl, rfl, ?_⟩
  decide

/-- C3 as amended: an open message with a truthy user id in details always
attempts authentication, and when authentication fails nothing is emitted
and the registry is untouched (so the connection is not registered under any
user); the open-failed reply is emitted only when the open message carries
no user id; a successful authentication registers the connection and emits
open-success. -/
theorem handleWebsocketMessage_open_behavior (m : SocketMap) (ws : WS) (hyd : Option String)
    (openAuth : String → Except String (Option String)) (ids : List String)
    (msg : ClientMessage) (h1 : msg.type = some "open") :
    (∀ uid, detailsUserId msg = some uid → openAuth uid = Except.ok none →
      handleWebsocketMessage m ws hyd openAuth ids (Except.ok (some msg)) =
        ⟨[], m, some uid, 0, [], false, none⟩) ∧
    (detailsUserId msg = none →
      handleWebsocketMessage m ws hyd openAuth ids (Except.ok (some msg)) =
        ⟨[openFailedMessage], m, none, 1, [], false, none⟩) ∧
    (∀ uid u, detailsUserId msg = some uid → openAuth uid = Except.ok (some u) →
      handleWebsocketMessage m ws hyd openAuth ids (Except.ok (some msg)) =
        ⟨[openSuccessMessage], registerClientSocket m (some u) ws, some uid, 0, [],
          false, none⟩) := by
  refine ⟨?_, ?_, ?_⟩
  · intro uid hdet hauth
    simp [handleWebsocketMessage, h1, truthyStr, hdet, hauth]
  · intro hdet
    simp [handleWebsocketMessage, h1, truthyStr, hdet]
  · intro uid u hdet hauth
    simp [handleWebsocketMessage, h1, truthyStr, hdet, hauth]

/-- Witness for the amended C3: the three open-handshake branches evaluated
at concrete inputs. -/
theorem handleWebsocketMessage_open_behavior_witness :
    handleWebsocketMessage [] 7 none (fun _ => Except.ok none) []
        (Except.ok (some ⟨some "open", none, none, some ⟨some "u2", none⟩⟩)) =
      ⟨[], [], some "u2", 0, [], false, none⟩ ∧
    handleWebsocketMessage [] 7 none (fun _ => Except.ok none) []
        (Except.ok (some ⟨some "open", none, none, none⟩)) =
      ⟨[openFailedMessage], [], none, 1, [], false, none⟩ ∧
    handleWebsocketMessage [] 7 none (fun _ => Except.ok (some "u2")) []
        (Except.ok (some ⟨some "open", none, none, some ⟨some "u2", none⟩⟩)) =
      ⟨[openSuccessMessage], registerClientSocket [] (some "u2") 7, some "u2", 0, [],
        false, none⟩ := by
  refine ⟨?_, ?_, ?_⟩
  · exact (handleWebsocketMessage_open_behavior [] 7 none (fun _ => Except.ok none) []
      ⟨some "open", none, none, some ⟨some "u2", none⟩⟩ rfl).1 "u2" (by decide) rfl
  · exact (handleWebsocketMessage_open_behavior [] 7 none (fun _ => Except.ok none) []
      ⟨some "open", none, none, none⟩ rfl).2.1 (by decide)
  · exact (handleWebsocketMessage_open_behavior [] 7 none (fun _ => Except.ok (some "u2")) []
      ⟨some "open", none, none, some ⟨some "u2", none⟩⟩ rfl).2.2 "u2" "u2" (by decide) rfl

/-- C4 counterexample: after two successful open handshakes on the same
connection the registry holds it twice, and one multicast sends two copies
to that single physical connection, refuting the at-most-one-copy claim. -/
theorem multicast_duplicates_after_double_register :
    ¬ ((deliverMessage (registerClientSocket (registerClientSocket [] (some "u") 0) (some "u") 0)
        (some "u") none false (Json.str "m") true).countP (fun p => p.1 == 0) ≤ 1) := by
  decide

/-- C4 as amended: a second successful open appends the connection to the
user session list a second time (registration is not deduplicated), and a
multicast sends one copy per stored occurrence, so each physical connection
receives as many copies as it has registrations — two after a duplicated
open, not at most one. -/
theorem register_append_and_multicast_copies (m : SocketMap) (u : String) (ws : WS)
    (l : List WS) (hl : lookupSockets m u = some l) :
    lookupSockets (registerClientSocket m (some u) ws) u = some (l ++ [ws]) ∧
    (∀ (cws : Option WS) (pretty : Bool) (message : Json) (target : WS),
      (deliverMessage m (some u) cws pretty message true).countP (fun p => p.1 == target) =
        l.count target) := by
  constructor
  · simp only [registerClientSocket, hl]
    exact lookupSockets_setSockets_self m u (l ++ [ws])
  · intro cws pretty message target
    exact deliverMessage_multicast_countP m u cws pretty message l target hl

/-- Witness for the amended C4: starting from one registration of socket 0,
a second registration stores it twice and a multicast then sends it two
copies. -/
theorem register_append_and_multicast_copies_witness :
    lookupSockets (registerClientSocket [("u", [0])] (some "u") 0) "u" = some [0, 0] ∧
    (deliverMessage [("u", [0, 0])] (some "u") none false (Json.str "m") true).countP
        (fun p => p.1 == 0) = 2 := by
  constructor
  · exact (register_append_and_multicast_copies [("u", [0])] "u" 0 [0] (by decide)).1
  · exact (register_append_and_multicast_copies [("u", [0, 0])] "u" 0 [0, 0]
      (by decide)).2 none false (Json.str "m") 0

/-- C10: when a connection occurs at least twice in a user session list, one
unregistration removes exactly one occurrence by identity, the connection
remains registered, and a subsequent multicast still sends at least one copy
to it. -/
theorem unregister_removes_single_occurrence (m : SocketMap) (u : String) (ws : WS)
    (l : List WS) (pretty : Bool) (message : Json)
    (hl : lookupSockets m u = some l) (hc : 2 ≤ l.count ws) :
    lookupSockets (unregisterClientSocket m (some u) ws) u = some (removeFirst ws l) ∧
    (removeFirst ws l).count ws = l.count ws - 1 ∧
    ws ∈ removeFirst ws l ∧
    1 ≤ (deliverMessage (unregisterClientSocket m (some u) ws) (some u) none pretty message
        true).countP (fun p => p.1 == ws) := by
  have hmem : ws ∈ l := by
    apply List.count_pos_iff.mp
    omega
  have hlen : 1 < l.length := by
    have h1 := List.count_le_length ws l
    omega
  have hunreg : unregisterClientSocket m (some u) ws = setSockets m u (removeFirst ws l) := by
    simp [unregisterClientSocket, hl, hmem, hlen]
  have hlook2 : lookupSockets (unregisterClientSocket m (some u) ws) u =
      some (removeFirst ws l) := by
    rw [hunreg]
    exact lookupSockets_setSockets_self m u (removeFirst ws l)
  have hcount : (removeFirst ws l).count ws = l.count ws - 1 := removeFirst_count ws l hmem
  have hmem2 : ws ∈ removeFirst ws l := by
    apply List.count_pos_iff.mp
    omega
  refine ⟨hlook2, hcount, hmem2, ?_⟩
  rw [deliverMessage_multicast_countP _ u none pretty message (removeFirst ws l) ws hlook2]
  omega

/-- Witness for C10: socket 0 registered twice for a user; one
unregistration leaves one occurrence and a multicast still reaches it. -/
theorem unregister_removes_single_occurrence_witness :
    lookupSockets (unregisterClientSocket [("u", [0, 0])] (some "u") 0) "u" = some [0] ∧
    1 ≤ (deliverMessage (unregisterClientSocket [("u", [0, 0])] (some "u") 0) (some "u") none
        false (Json.str "m") true).countP (fun p => p.1 == 0) := by
  have h := unregister_removes_single_occurrence [("u", [0, 0])] "u" 0 [0, 0] false
    (Json.str "m") (by decide) (by decide)
  exact ⟨h.1, h.2.2.2⟩

/-- C6: with user id, callback and service-id list present, the auth request
redirects with a scope list that is a deduplicated, order-preserving union
of the two base profile scopes and the declared scopes of the recognized
requested sub-services; unrecognized ids are excluded from both the scope
set and the accepted-service list without raising an error, and an
all-unknown list still redirects with exactly the base scopes and an empty
accepted-service list. -/
theorem handleServiceAuthRequest_scopes (info : SearcherInfo) (q : AuthQuery)
    (h1 : truthyStr q.braidUserId = true) (h2 : truthyStr q.callback = true)
    (h3 : truthyStr q.serviceIds = true) :
    ∃ sc,
      handleServiceAuthRequest info q =
        AuthReqOutcome.redirectUrl sc (q.braidUserId.getD "")
          (((q.serviceIds.getD "").splitOn ",").filter (recognizedService info))
          (q.callback.getD "") ∧
      sc.Nodup ∧
      (∀ x, x ∈ sc ↔ x ∈ baseScopes ∨
        x ∈ ((q.serviceIds.getD "").splitOn ",").flatMap (declaredScopes info)) ∧
      sc.Sublist
        (baseScopes ++ ((q.serviceIds.getD "").splitOn ",").flatMap (declaredScopes info)) ∧
      ((∀ sid ∈ (q.serviceIds.getD "").splitOn ",", recognizedService info sid = false) →
        sc = baseScopes ∧
          (((q.serviceIds.getD "").splitOn ",").filter (recognizedService info)) = []) := by
  refine ⟨(authReqFold info (baseScopes, []) ((q.serviceIds.getD "").splitOn ",")).1,
    ?_, ?_, ?_, ?_, ?_⟩
  · have hout : handleServiceAuthRequest info q =
        AuthReqOutcome.redirectUrl
          (authReqFold info (baseScopes, []) ((q.serviceIds.getD "").splitOn ",")).1
          (q.braidUserId.getD "")
          (authReqFold info (baseScopes, []) ((q.serviceIds.getD "").splitOn ",")).2
          (q.callback.getD "") := by
      simp [handleServiceAuthRequest, h1, h2, h3, authReqFold]
    rw [hout, authReqFold_services]
    simp
  · exact authReqFold_scopes_nodup info _ _ (by decide)
  · intro x
    exact authReqFold_scopes_mem info _ _ x
  · rcases authReqFold_scopes_sublist info ((q.serviceIds.getD "").splitOn ",")
      (baseScopes, []) with ⟨t, ht, hsub⟩
    rw [ht]
    exact List.Sublist.append_left hsub baseScopes
  · intro hall
    constructor
    · rw [authReqFold_unrecognized info _ hall]
    · exact List.filter_eq_nil_iff.mpr (fun sid hs => by simp [hall sid hs])

/-- Witness for C6: a concrete searcher configuration and the request
gmail,unknown-id accept only gmail; the witness extracts the redirect
equality and the deduplication property. -/
theorem handleServiceAuthRequest_scopes_witness :
    ∃ sc,
      handleServiceAuthRequest ⟨"gmail", ["gs1"], "drive", ["ds"]⟩
          ⟨some "U1", some "cb", some "gmail,unknown-id"⟩ =
        AuthReqOutcome.redirectUrl sc "U1"
          ((((some "gmail,unknown-id" : Option String).getD "").splitOn ",").filter
            (recognizedService ⟨"gmail", ["gs1"], "drive", ["ds"]⟩)) "cb" ∧
      sc.Nodup := by
  obtain ⟨sc, heq, hnodup, -, -, -⟩ := handleServiceAuthRequest_scopes
    ⟨"gmail", ["gs1"], "drive", ["ds"]⟩ ⟨some "U1", some "cb", some "gmail,unknown-id"⟩
    (by decide) (by decide) (by decide)
  exact ⟨sc, heq, hnodup⟩

/-- C7: a configured liveness period of zero is replaced by a very large
period; the first deadline of a fresh connection is seeded one half-period
after start; a tick closes the connection exactly when the elapsed time
since the last liveness reply exceeds the period and otherwise sends a
probe; a connection that replies within every period is never closed, and a
connection with a tick a full period after its last reply is closed. -/
theorem liveness_monitor (start period t : ℚ) (st : LiveState)
    (events pre post : List WsEvent) :
    effectivePingPong (some 0) = 1000 * 60 * 60 * 24 ∧
    ((liveInit start period).lastPong = start + period / 2 ∧
      (liveInit start period).closed = false) ∧
    (st.closed = false →
      liveStep period st (WsEvent.tick t) =
        (if t - st.lastPong > period then { st with closed := true }
         else { st with pings := st.pings + 1 })) ∧
    (repliesWithinEvery start period events = true →
      (liveRun period start events).closed = false) ∧
    (events = pre ++ WsEvent.tick t :: post → t - lastReply start period pre > period →
      (liveRun period start events).closed = true) := by
  refine ⟨by norm_num [effectivePingPong], ⟨rfl, rfl⟩, ?_, ?_, ?_⟩
  · intro hcl
    by_cases ht : t - st.lastPong > period
    · simp [liveStep, hcl, ht]
    · simp [liveStep, hcl, ht]
  · intro hreplies
    exact liveRun_not_closed_of_replies period start events hreplies
  · intro hdecomp hmiss
    exact liveRun_closed_of_missed period start events pre post t hdecomp hmiss

/-- Witness for C7: with period 10 starting at 0, the trace tick 10, pong
12, tick 20 never closes the connection, while the trace tick 10, tick 30
closes it at the second tick. -/
theorem liveness_monitor_witness :
    (liveRun 10 0 [WsEvent.tick 10, WsEvent.pong 12, WsEvent.tick 20]).closed = false ∧
    (liveRun 10 0 [WsEvent.tick 10, WsEvent.tick 30]).closed = true := by
  constructor
  · exact (liveness_monitor 0 10 0 (liveInit 0 10)
      [WsEvent.tick 10, WsEvent.pong 12, WsEvent.tick 20] [] []).2.2.2.1
      (by norm_num [repliesWithinEvery, lastReply, List.range_succ])
  · exact (liveness_monitor 0 10 30 (liveInit 0 10)
      [WsEvent.tick 10, WsEvent.tick 30] [WsEvent.tick 10] []).2.2.2.2 rfl
      (by norm_num [lastReply])

theorem lookupSockets_mem (m : SocketMap) (u : String) (l : List WS)
    (h : lookupSockets m u = some l) : (u, l) ∈ m := by
  unfold lookupSockets at h
  cases hf : m.find? (fun e => e.1 = u) with
  | none => rw [hf] at h; simp at h
  | some e =>
    rw [hf] at h
    simp at h
    have hmem := List.mem_of_find?_eq_some hf
    have hpred := List.find?_some hf
    simp only [decide_eq_true_eq] at hpred
    have he : e = (u, l) := by
      cases e
      simp_all
    rw [← he]
    exact hmem

/-- C8: the user-to-sessions map holds no empty session list: both
registration paths store a non-empty list, unregistration either splices one
element out of a list of at least two, deletes the whole entry starting from
a singleton, or is a no-op (in particular when the connection is absent),
and signout closes every session and deletes the entry; under the
invariant, a present entry is non-empty, so absence of an entry is what
encodes zero active connections. -/
theorem socketRegistry_no_empty_entries (m : SocketMap) (ctxUser : Option String)
    (u : String) (ws : WS) (hwf : SocketMapWF m) :
    SocketMapWF (registerClientSocket m ctxUser ws) ∧
    SocketMapWF (unregisterClientSocket m ctxUser ws) ∧
    SocketMapWF (onUserSignedOut m u).2 ∧
    (∀ l, lookupSockets m u = some l → l ≠ []) ∧
    (∀ l, lookupSockets m u = some l →
      lookupSockets (registerClientSocket m (some u) ws) u = some (l ++ [ws])) ∧
    (lookupSockets m u = none →
      lookupSockets (registerClientSocket m (some u) ws) u = some [ws]) ∧
    (∀ l, lookupSockets m u = some l → ws ∉ l → unregisterClientSocket m (some u) ws = m) ∧
    (lookupSockets m u = none → unregisterClientSocket m (some u) ws = m) ∧
    (∀ l, lookupSockets m u = some l → ws ∈ l → l.length = 1 →
      lookupSockets (unregisterClientSocket m (some u) ws) u = none) ∧
    ((onUserSignedOut m u).1 = sessionsOf m u ∧
      lookupSockets ((onUserSignedOut m u).2) u = none) := by
  refine ⟨?_, ?_, ?_, ?_, ?_, ?_, ?_, ?_, ?_, ?_⟩
  · cases ctxUser with
    | none => exact hwf
    | some v =>
      cases hl : lookupSockets m v with
      | none =>
        intro e he
        simp only [registerClientSocket, hl] at he
        rcases mem_setSockets m v [ws] e he with h2 | h2
        · exact hwf e h2
        · rw [h2]
          simp
      | some l =>
        intro e he
        simp only [registerClientSocket, hl] at he
        rcases mem_setSockets m v (l ++ [ws]) e he with h2 | h2
        · exact hwf e h2
        · rw [h2]
          simp
  · cases ctxUser with
    | none => exact hwf
    | some v =>
      cases hl : lookupSockets m v with
      | none =>
        simpa [unregisterClientSocket, hl] using hwf
      | some l =>
        by_cases hmem : ws ∈ l
        · by_cases hlen : l.length > 1
          · intro e he
            simp only [unregisterClientSocket, hl, hmem, if_pos, hlen] at he
            rcases mem_setSockets m v (removeFirst ws l) e he with h2 | h2
            · exact hwf e h2
            · rw [h2]
              show removeFirst ws l ≠ []
              have hlrem := removeFirst_length ws l hmem
              refine List.length_pos.mp ?_
              omega
          · intro e he
            simp only [unregisterClientSocket, hl, hmem, if_pos, hlen, if_neg] at he
            exact hwf e (mem_delSockets m v e he)
        · simpa [unregisterClientSocket, hl, hmem] using hwf
  · cases hl : lookupSockets m u with
    | none =>
      simpa [onUserSignedOut, hl] using hwf
    | some l =>
      intro e he
      simp only [onUserSignedOut, hl] at he
      exact hwf e (mem_delSockets m u e he)
  · intro l h
    exact hwf (u, l) (lookupSockets_mem m u l h)
  · intro l h
    simp only [registerClientSocket, h]
    exact lookupSockets_setSockets_self m u (l ++ [ws])
  · intro h
    simp only [registerClientSocket, h]
    exact lookupSockets_setSockets_self m u [ws]
  · intro l h hmem
    simp [unregisterClientSocket, h, hmem]
  · intro h
    simp [unregisterClientSocket, h]
  · intro l h hmem hlen
    have hlen2 : ¬ l.length > 1 := by omega
    simp only [unregisterClientSocket, h, hmem, if_pos, hlen2, if_neg]
    exact lookupSockets_delSockets_self m u
  · cases hl : lookupSockets m u with
    | none => exact ⟨by simp [onUserSignedOut, hl, sessionsOf], by simp [onUserSignedOut, hl]⟩
    | some l =>
      refine ⟨by simp [onUserSignedOut, hl, sessionsOf], ?_⟩
      simp only [onUserSignedOut, hl]
      exact lookupSockets_delSockets_self m u

/-- Witness for C8: concrete registries exercising invariant preservation,
entry deletion on removing the last session, and signout. -/
theorem socketRegistry_no_empty_entries_witness :
    SocketMapWF (unregisterClientSocket [("u", [1, 2]), ("v", [3])] (some "u") 1) ∧
    lookupSockets (unregisterClientSocket [("v", [3])] (some "v") 3) "v" = none ∧
    lookupSockets ((onUserSignedOut [("u", [1, 2])] "u").2) "u" = none := by
  refine ⟨?_, ?_, ?_⟩
  · exact (socketRegistry_no_empty_entries [("u", [1, 2]), ("v", [3])] (some "u") "u" 1
      (by simp [SocketMapWF])).2.1
  · exact (socketRegistry_no_empty_entries [("v", [3])] (some "v") "v" 3
      (by simp [SocketMapWF])).2.2.2.2.2.2.2.2.1 [3] (by decide) (by decide) (by decide)
  · exact (socketRegistry_no_empty_entries [("u", [1, 2])] none "u" 0
      (by simp [SocketMapWF])).2.2.2.2.2.2.2.2.2.2

end Brd
